import Mathlib

/-!
# Verification of the pr_reviewer_service reviewer-assignment engine

Shallow embedding of the Go sources of `glebmavi/pr_reviewer_service`
(`internal/app/*.go`, `internal/storage/postgres/repo.go`, `db/sql/*.sql`,
the engine file given as `unnamed/part_002`).

State model: the persisted database is a `DB` value.  Every top-level
service operation opens one transaction; repository methods that take a
`pgx.Tx` handle read and write the transaction-local view (`cur`), while
repository methods without a `tx` parameter (`GetReviewers`,
`GetUserByID`, `GetTeamByID`, `GetTeamByName`, `FindReviewCandidates`,
`GetPRByID`) run on the connection pool (`querier(nil)` in repo.go) and
therefore see only the committed state (`base`): under PostgreSQL READ
COMMITTED an uncommitted write of the transaction's connection is not
visible to another pooled connection.  Commit replaces the committed
state by the transaction view; any error before commit triggers the
deferred rollback, leaving the committed state unchanged (services
return `Except`, and `.error` means the committed state is the input).

`ORDER BY random()` in `FindReplacementCandidates` is modelled as the
stored row order; every property proved below is invariant under a
permutation of the eligible pool.  Go's `uuid.New()` is modelled by
passing the fresh id as an explicit argument.
-/

namespace PRReviewer

/-- Domain error sentinels, `internal/domain/entities.go` lines 8-18. -/
inductive Err where
  | InternalError
  | NoCandidate
  | NotAssigned
  | NotFound
  | PRExists
  | PRMerged
  | TeamExists
  | Validation
  | UserNotActive
deriving Repr, DecidableEq

/-- PR status enum, `entities.go` lines 20-25 (`OPEN` / `MERGED`). -/
inductive PRStatus where
  | OPEN
  | MERGED
deriving Repr, DecidableEq, BEq

/-- `domain.User` (`entities.go` lines 27-33).  `TeamName` is a load-time
projection never used by the engine logic and is omitted. -/
structure User where
  id : String
  username : String
  teamId : Int
  isActive : Bool
deriving Repr, DecidableEq

/-- `domain.Team` (`entities.go` lines 39-44); `Members` is a load-time
projection, not stored. -/
structure Team where
  id : Int
  teamName : String
  isActive : Bool
deriving Repr, DecidableEq

/-- `domain.PullRequest` (`entities.go` lines 50-58).  The `Reviewers`
field is a projection, re-read from `review_assignments`; timestamps are
irrelevant to the verified claims and omitted. -/
structure PullRequest where
  id : String
  name : String
  authorId : String
  status : PRStatus
deriving Repr, DecidableEq

/-- `domain.Reviewer` (`entities.go` lines 60-63). -/
structure Reviewer where
  id : String
  username : String
deriving Repr, DecidableEq

/-- `PullRequest.IsOpen` (`entities.go` lines 65-67):
`pr.Status != StatusMerged`. -/
def PullRequest.IsOpen (pr : PullRequest) : Bool :=
  pr.status != PRStatus.MERGED

/-- The four persisted relations (`db/migrations` schema): teams, users,
pull_requests and review_assignments, the latter as (pr_id, user_id)
pairs with primary key (pr_id, user_id). -/
structure DB where
  teams : List Team
  users : List User
  prs : List PullRequest
  assignments : List (String × String)
deriving Repr, DecidableEq

/-- `maxReviewers = 2`, `internal/app/team_service.go` lines 15-17. -/
def maxReviewers : Nat := 2

instance {ε α : Type} [DecidableEq ε] [DecidableEq α] : DecidableEq (Except ε α) := fun x y =>
  match x, y with
  | .ok a, .ok b =>
    if h : a = b then isTrue (by rw [h]) else isFalse (by intro hc; cases hc; exact h rfl)
  | .error a, .error b =>
    if h : a = b then isTrue (by rw [h]) else isFalse (by intro hc; cases hc; exact h rfl)
  | .ok _, .error _ => isFalse (by intro hc; cases hc)
  | .error _, .ok _ => isFalse (by intro hc; cases hc)

/-! ## Repository layer (`internal/storage/postgres/repo.go`, `db/sql`)

Functions without a `tx` argument in the Go interface read the committed
state; callers pass `base` to them.  Functions with a `tx` argument are
given the transaction view. -/

/-- `GetTeamByName` (repo.go lines 66-76; `team.sql` `GetTeamByName`):
first team with the given name, pool read. -/
def getTeamByName (db : DB) (teamName : String) : Option Team :=
  db.teams.find? (fun t => t.teamName == teamName)

/-- `GetTeamByID` (repo.go lines 78-88): pool read. -/
def getTeamByID (db : DB) (teamId : Int) : Option Team :=
  db.teams.find? (fun t => t.id == teamId)

/-- `GetUserByID` (repo.go lines 145-155), backed by `user.sql`
`GetUserWithTeam`: an inner join of `users` with `teams`, so the user is
found only if their team row exists.  Pool read. -/
def getUserByID (db : DB) (userId : String) : Option User :=
  match db.users.find? (fun u => u.id == userId) with
  | none => none
  | some u =>
    match db.teams.find? (fun t => t.id == u.teamId) with
    | none => none
    | some _ => some u

/-- `GetReviewers` (repo.go lines 327-338), backed by `pr.sql`
`GetReviewersForPR`: `users JOIN review_assignments ON user_id WHERE
pr_id = $1`.  The interface method has **no transaction parameter** and
the implementation uses `querier(nil)`, i.e. the pool: it always returns
the committed state, never an open transaction's view.  Only `ID` and
`Username` are mapped into the result (repo.go line 335). -/
def getReviewers (db : DB) (prId : String) : List Reviewer :=
  (db.assignments.filter (fun a => a.1 == prId)).filterMap
    (fun a => (db.users.find? (fun u => u.id == a.2)).map
      (fun u => ⟨u.id, u.username⟩))

/-- `FindReviewCandidates` (repo.go lines 227-243), backed by `pr.sql`
`FindReplacementCandidates` (lines 33-41): active users of the team,
excluding the author and every id in `excludeIds`, `ORDER BY random()
LIMIT limit`.  The random order is modelled as the stored order; all
properties proved are permutation-invariant.  Pool read. -/
def findReviewCandidates (db : DB) (teamId : Int) (authorId : String)
    (excludeIds : List String) (limit : Nat) : List User :=
  (db.users.filter (fun u =>
    u.teamId == teamId && u.isActive && u.id != authorId
      && !(excludeIds.contains u.id))).take limit

/-- `CreateUser` (repo.go lines 127-143; `user.sql` `CreateUser`):
inserts the row passing `IsActive: true` **hardcoded** (repo.go line
133), ignoring `user.IsActive`.  A unique violation (duplicate user id
or username) is mapped to `ErrValidation`; any other failure (e.g. the
team foreign key) to `ErrInternalError`.  Returns the row as stored. -/
def repoCreateUser (db : DB) (user : User) : Except Err (DB × User) :=
  if db.users.any (fun v => v.id == user.id || v.username == user.username) then
    .error .Validation
  else if !(db.teams.any (fun t => t.id == user.teamId)) then
    .error .InternalError
  else
    let stored : User := { user with isActive := true }
    .ok ({ db with users := db.users ++ [stored] }, stored)

/-- `SetUserActiveStatus` (repo.go lines 187-201; `user.sql`): updates
`is_active` of the user row, `ErrNotFound` if absent; returns the
updated row. -/
def repoSetUserActiveStatus (db : DB) (userId : String) (isActive : Bool) :
    Except Err (DB × User) :=
  match db.users.find? (fun u => u.id == userId) with
  | none => .error .NotFound
  | some u =>
    .ok ({ db with users := db.users.map (fun v =>
            if v.id == userId then { v with isActive := isActive } else v) },
         { u with isActive := isActive })

/-- `DeactivateUsersByTeam` (repo.go lines 218-225; `user.sql` lines
53-58): `UPDATE users SET is_active = false WHERE team_id = $1 AND
is_active = true RETURNING user_id` — only members active at call time
are touched and returned. -/
def repoDeactivateUsersByTeam (db : DB) (teamId : Int) : DB × List String :=
  (({ db with users := db.users.map (fun u =>
        if u.teamId == teamId && u.isActive then { u with isActive := false } else u) }),
   (db.users.filter (fun u => u.teamId == teamId && u.isActive)).map User.id)

/-- `DeactivateTeam` (repo.go lines 113-123): resolves the team by name
through `GetTeamByName`, which is a **pool** read (repo.go line 115 calls
`r.GetTeamByName`, line 67 `querier(nil)`), then updates `is_active` in
the transaction view. -/
def repoDeactivateTeam (base cur : DB) (teamName : String) : Except Err DB :=
  match getTeamByName base teamName with
  | none => .error .NotFound
  | some t =>
    .ok { cur with teams := cur.teams.map (fun x =>
            if x.id == t.id then { x with isActive := false } else x) }

/-- `GetPRByID` (repo.go lines 269-289): pool read. -/
def getPRByID (db : DB) (prId : String) : Option PullRequest :=
  db.prs.find? (fun p => p.id == prId)

/-- `CreatePR` (repo.go lines 247-267; `pr.sql` `CreatePR`): insert with
status defaulting to OPEN; duplicate pr id is `ErrPRExists`, missing
author foreign key is `ErrNotFound`. -/
def repoCreatePR (db : DB) (pr : PullRequest) : Except Err (DB × PullRequest) :=
  if db.prs.any (fun p => p.id == pr.id) then .error .PRExists
  else if !(db.users.any (fun u => u.id == pr.authorId)) then .error .NotFound
  else
    let stored : PullRequest := { pr with status := .OPEN }
    .ok ({ db with prs := db.prs ++ [stored] }, stored)

/-- `MergePR` (repo.go lines 291-325; `pr.sql` `MergePR`): sets the
status to MERGED unconditionally, `ErrNotFound` if the row is absent. -/
def repoMergePR (db : DB) (prId : String) : Except Err (DB × PullRequest) :=
  match db.prs.find? (fun p => p.id == prId) with
  | none => .error .NotFound
  | some pr =>
    .ok ({ db with prs := db.prs.map (fun p =>
            if p.id == prId then { p with status := .MERGED } else p) },
         { pr with status := .MERGED })

/-- `RemoveReviewer` (repo.go lines 340-346; `pr.sql`
`RemoveReviewerFromPR`): deletes the (pr, user) pair in the transaction
view; deleting an absent pair is not an error. -/
def removeReviewer (db : DB) (prId userId : String) : DB :=
  { db with assignments := db.assignments.filter (fun a => !(a.1 == prId && a.2 == userId)) }

/-- One `AddReviewerToPR` insert (`pr.sql` lines 17-19): a plain INSERT,
so a duplicate (pr_id, user_id) primary-key hit or a broken foreign key
fails; `AssignReviewers` (repo.go lines 348-356) maps any such failure
to `ErrInternalError`. -/
def addReviewerToPR (db : DB) (prId userId : String) : Except Err DB :=
  if db.assignments.contains (prId, userId) then .error .InternalError
  else if !(db.prs.any (fun p => p.id == prId)) then .error .InternalError
  else if !(db.users.any (fun u => u.id == userId)) then .error .InternalError
  else .ok { db with assignments := db.assignments ++ [(prId, userId)] }

/-- `AssignReviewers` (repo.go lines 348-356): inserts the user ids one
by one in the transaction view, stopping at the first failure. -/
def assignReviewers (db : DB) (prId : String) : List String → Except Err DB
  | [] => .ok db
  | userId :: rest => do
    let db' ← addReviewerToPR db prId userId
    assignReviewers db' prId rest

/-- `GetOpenPRsByReviewer` (repo.go lines 358-369), backed by `pr.sql`
`GetPRsForReviewer`: the SQL joins `pull_requests` with
`review_assignments` on the user id **with no status filter**, so
despite its name it returns merged PRs too.  Runs on the transaction
view (`querier(tx)`).  Only `ID` and `AuthorID` are mapped back
(repo.go line 366); the later code uses only those fields. -/
def getOpenPRsByReviewer (db : DB) (userId : String) : List PullRequest :=
  db.prs.filter (fun p => db.assignments.contains (p.id, userId))

/-! ## Service layer

Each top-level service operation takes the committed database and
returns `Except Err (DB × α)`: `.ok (db', out)` means the transaction
committed and `db'` is the new committed state; `.error e` means the
deferred rollback ran and the committed state is unchanged (the input).
Pool reads inside an open transaction are given the *initial committed*
state `base`, which does not change while the transaction is open. -/

/-- Post-call committed state of an operation: the new state on commit,
the unchanged input on rollback (every service wraps its transaction in
a deferred `RollbackTx`). -/
def commitOf {α : Type} (db : DB) (r : Except Err (DB × α)) : DB :=
  match r with
  | .ok (db', _) => db'
  | .error _ => db

/-- `PullRequestService.GetPR` (part_002 lines 96-113): `GetPRByID` plus
`GetReviewers`, both pool reads. -/
def getPR (db : DB) (prId : String) : Option (PullRequest × List Reviewer) :=
  match getPRByID db prId with
  | none => none
  | some pr => some (pr, getReviewers db prId)

/-- `PullRequestService.CreatePR` (part_002 lines 39-94, identical to
`internal/app/pr_service.go` lines 33-84): validate name and author id,
resolve the author (pool), begin a transaction, insert the PR with
status OPEN, pick up to `maxReviewers` candidates from the author's
team (pool read on the committed state), insert an assignment row per
candidate, commit.  `newPrId` stands for the generated `uuid.New()`. -/
def createPR (db : DB) (name authorId newPrId : String) :
    Except Err (DB × PullRequest × List User) :=
  if name == "" || authorId == "" then .error .Validation
  else
    match getUserByID db authorId with
    | none => .error .NotFound
    | some author => do
      let (cur1, createdPR) ← repoCreatePR db
        { id := newPrId, name := name, authorId := authorId, status := .OPEN }
      let candidates := findReviewCandidates db author.teamId authorId [] maxReviewers
      let cur2 ←
        if candidates.length > 0 then
          assignReviewers cur1 createdPR.id (candidates.map User.id)
        else pure cur1
      .ok (cur2, createdPR, candidates)

/-- `PullRequestService.MergePR` (part_002 lines 115-145): reject a
non-open PR with `ErrPRMerged` before opening the transaction, then
update the status and commit. -/
def mergePR (db : DB) (prId : String) : Except Err (DB × PullRequest) :=
  match getPRByID db prId with
  | none => .error .NotFound
  | some pr =>
    if !pr.IsOpen then .error .PRMerged
    else do
      let (cur1, mergedPR) ← repoMergePR db prId
      .ok (cur1, mergedPR)

/-- `PullRequestService.AssignReviewer` (part_002 lines 147-197): the
user must exist and be active (`ErrUserNotActive`), the PR must be OPEN
(`ErrPRMerged`), the user must not be the author (`ErrValidation`); a
user already in the reviewer set is a no-op success returning before any
transaction; a full reviewer set is `ErrValidation`; otherwise one
assignment row is inserted and committed and the PR re-read. -/
def assignReviewer (db : DB) (prId userId : String) :
    Except Err (DB × Option (PullRequest × List Reviewer)) :=
  match getUserByID db userId with
  | none => .error .NotFound
  | some user =>
    if !user.isActive then .error .UserNotActive
    else
      match getPR db prId with
      | none => .error .NotFound
      | some (pr, reviewers) =>
        if !pr.IsOpen then .error .PRMerged
        else if pr.authorId == userId then .error .Validation
        else if reviewers.any (fun r => r.id == userId) then
          .ok (db, some (pr, reviewers))
        else if reviewers.length ≥ maxReviewers then .error .Validation
        else do
          let cur1 ← assignReviewers db prId [userId]
          .ok (cur1, getPR cur1 prId)

/-- `PullRequestService.validateReassignment` (part_002 lines 236-252):
merged status is checked before membership, so a merged PR yields
`ErrPRMerged` even when the user is not an assigned reviewer. -/
def validateReassignment (pr : PullRequest) (reviewers : List Reviewer)
    (oldUserId : String) : Option Err :=
  if !pr.IsOpen then some .PRMerged
  else if !(reviewers.any (fun r => r.id == oldUserId)) then some .NotAssigned
  else none

/-- `PullRequestService.reassignReviewerInTx` (part_002 lines 254-293):
remove the old reviewer row in the transaction, then re-read the
reviewer set — through `GetReviewers`, a **pool** read of the committed
`base` (the code's comment claims an in-transaction refetch, but the
method has no `tx` parameter) — filter the removed id out in Go code,
resolve the author (pool), search one candidate excluding the remaining
reviewers plus the removed user, and insert it if found.  When no
candidate exists it logs a warning and returns the empty id with **no
error** (lines 282-285); `ErrNoCandidate` is never produced. -/
def reassignReviewerInTx (base cur : DB) (pr : PullRequest) (oldUserId : String) :
    Except Err (DB × String) :=
  let cur1 := removeReviewer cur pr.id oldUserId
  let currentReviewers := getReviewers base pr.id
  let currentReviewerIDs := (currentReviewers.filter (fun r => r.id != oldUserId)).map Reviewer.id
  match getUserByID base pr.authorId with
  | none => .error .NotFound
  | some author =>
    let excludeIDs := currentReviewerIDs ++ [oldUserId]
    let candidates := findReviewCandidates base author.teamId pr.authorId excludeIDs 1
    match candidates with
    | [] => .ok (cur1, "")
    | c :: _ => do
      let cur2 ← assignReviewers cur1 pr.id [c.id]
      .ok (cur2, c.id)

/-- `PullRequestService.ReassignReviewer` (part_002 lines 199-234):
pre-transaction `GetPR`, validation, then `reassignReviewerInTx` inside
one transaction, commit, and a post-commit `GetPR` re-read. -/
def reassignReviewer (db : DB) (prId oldUserId : String) :
    Except Err (DB × Option (PullRequest × List Reviewer) × String) :=
  match getPR db prId with
  | none => .error .NotFound
  | some (pr, reviewers) =>
    match validateReassignment pr reviewers oldUserId with
    | some e => .error e
    | none => do
      let (cur1, newReviewerID) ← reassignReviewerInTx db db pr oldUserId
      .ok (cur1, getPR cur1 prId, newReviewerID)

/-- One iteration of the inner loop of `reassignReviewsForUsers`
(part_002 lines 311-351): remove the deactivated user from the PR, then
check whether the reviewer set is empty through `GetReviewers` — a
**pool** read of the committed `base`, which still contains the
just-removed (uncommitted) reviewer; only when that committed set is
empty resolve the author and team (pool), and if the team is active
search up to `maxReviewers − |current|` candidates and insert them,
counting the PR once. -/
def rebalancePR (base cur : DB) (count : Nat) (userId : String)
    (pr : PullRequest) : Except Err (DB × Nat) :=
  let cur1 := removeReviewer cur pr.id userId
  let currentReviewers := getReviewers base pr.id
  if currentReviewers.length == 0 then
    match getUserByID base pr.authorId with
    | none => .error .NotFound
    | some author =>
      match getTeamByID base author.teamId with
      | none => .error .NotFound
      | some authorTeam =>
        if authorTeam.isActive then
          let excludeIDs := currentReviewers.map Reviewer.id
          let candidates := findReviewCandidates base author.teamId pr.authorId
            excludeIDs (maxReviewers - currentReviewers.length)
          if candidates.length > 0 then do
            let cur2 ← assignReviewers cur1 pr.id (candidates.map User.id)
            .ok (cur2, count + 1)
          else .ok (cur1, count)
        else .ok (cur1, count)
  else .ok (cur1, count)

/-- Inner loop of `reassignReviewsForUsers` over the PRs of one user
(part_002 lines 311-351). -/
def rebalancePRs (base cur : DB) (count : Nat) (userId : String) :
    List PullRequest → Except Err (DB × Nat)
  | [] => .ok (cur, count)
  | pr :: rest => do
    let (cur1, c1) ← rebalancePR base cur count userId pr
    rebalancePRs base cur1 c1 userId rest

/-- Outer loop of `reassignReviewsForUsers` (part_002 lines 305-352):
for each user fetch their PRs through the transaction view and process
each one. -/
def reassignUsersGo (base cur : DB) (count : Nat) :
    List String → Except Err (DB × Nat)
  | [] => .ok (cur, count)
  | userId :: rest => do
    let prs := getOpenPRsByReviewer cur userId
    let (cur1, c1) ← rebalancePRs base cur count userId prs
    reassignUsersGo base cur1 c1 rest

/-- `reassignReviewsForUsers` (part_002 lines 303-354; the identical
helper in `team_service.go` lines 203-254): the cascading rebalance run
inside the caller's transaction, returning the count of PRs that
received at least one new reviewer. -/
def reassignReviewsForUsers (base cur : DB) (userIds : List String) :
    Except Err (DB × Nat) :=
  reassignUsersGo base cur 0 userIds

/-- `TeamService.SetUserActiveStatus` / `UserService.SetUserActiveStatus`
(`team_service.go` lines 177-200, `user_service.go` lines 146-173):
update the flag in the transaction, then — only when deactivating — run
the cascading rebalance for that user inside the same transaction, and
commit. -/
def setUserActiveStatus (db : DB) (userId : String) (isActive : Bool) :
    Except Err (DB × User) := do
  let (cur1, user) ← repoSetUserActiveStatus db userId isActive
  let cur2 ←
    if !isActive then do
      let (c, _) ← reassignReviewsForUsers db cur1 [userId]
      pure c
    else pure cur1
  .ok (cur2, user)

/-- `TeamService.DeactivateTeamAndReassign` (`team_service.go` lines
106-137): inside one transaction resolve the team by name (pool), mark
it inactive, deactivate the then-active members (returning their ids),
run the cascading rebalance for those ids, commit, and return the
deactivated-user count and the reassigned-PR count. -/
def deactivateTeamAndReassign (db : DB) (teamName : String) :
    Except Err (DB × Nat × Nat) :=
  match getTeamByName db teamName with
  | none => .error .NotFound
  | some team => do
    let cur1 ← repoDeactivateTeam db db teamName
    let (cur2, deactivatedUserIDs) := repoDeactivateUsersByTeam cur1 team.id
    let (cur3, reassignedCount) ← reassignReviewsForUsers db cur2 deactivatedUserIDs
    .ok (cur3, deactivatedUserIDs.length, reassignedCount)

/-- `UserService.AddUser` (`user_service.go` lines 39-77): validate the
arguments, resolve the team (pool), insert the user inside a
transaction — the storage layer hardcodes `is_active = true` — and
commit, returning the stored row.  `newId` stands for `uuid.New()`. -/
def addUser (db : DB) (username teamName : String) (isActive : Bool)
    (newId : String) : Except Err (DB × User) :=
  if username == "" || teamName == "" then .error .Validation
  else
    match getTeamByName db teamName with
    | none => .error .NotFound
    | some team => do
      let (cur1, createdUser) ← repoCreateUser db
        { id := newId, username := username, teamId := team.id, isActive := isActive }
      .ok (cur1, createdUser)

/-! ## Concrete database states used by individual claims

Each claim that needs concrete evidence gets its own small state, built
the way the lifecycle services build them: one active team, users
belonging to it, an OPEN or MERGED pull request and its assignment
rows. -/

/-- C1 scenario: active team 1 with users A (author), B, C all active;
OPEN PR P authored by A whose sole reviewer is B. -/
def dbC1 : DB :=
  ⟨[⟨1, "t", true⟩],
   [⟨"A", "a", 1, true⟩, ⟨"B", "b", 1, true⟩, ⟨"C", "c", 1, true⟩],
   [⟨"P", "pr", "A", .OPEN⟩],
   [("P", "B")]⟩

/-- C1 scenario after `SetUserActiveStatus` flips B's flag inside the
transaction (the transaction view handed to the cascade). -/
def dbC1tx : DB :=
  ⟨[⟨1, "t", true⟩],
   [⟨"A", "a", 1, true⟩, ⟨"B", "b", 1, false⟩, ⟨"C", "c", 1, true⟩],
   [⟨"P", "pr", "A", .OPEN⟩],
   [("P", "B")]⟩

/-- C1 scenario final committed state produced by the code: B removed
from P, no replacement assigned. -/
def dbC1after : DB :=
  ⟨[⟨1, "t", true⟩],
   [⟨"A", "a", 1, true⟩, ⟨"B", "b", 1, false⟩, ⟨"C", "c", 1, true⟩],
   [⟨"P", "pr", "A", .OPEN⟩],
   []⟩

/-- C2 witness scenario: active team 1 with author A and three more
active members B, C, D; no PRs yet. -/
def dbC2w : DB :=
  ⟨[⟨1, "t", true⟩],
   [⟨"A", "a", 1, true⟩, ⟨"B", "b", 1, true⟩, ⟨"C", "c", 1, true⟩, ⟨"D", "d", 1, true⟩],
   [], []⟩

/-- C3 witness scenario: a MERGED PR P authored by A, with the active
user B available for the attempted mutations. -/
def dbC3w : DB :=
  ⟨[⟨1, "t", true⟩],
   [⟨"A", "a", 1, true⟩, ⟨"B", "b", 1, true⟩],
   [⟨"P", "pr", "A", .MERGED⟩],
   [("P", "B")]⟩

/-- C4 witness scenario: OPEN PR P by A reviewed by B, with C and D as
further active team members. -/
def dbC4w : DB :=
  ⟨[⟨1, "t", true⟩],
   [⟨"A", "a", 1, true⟩, ⟨"B", "b", 1, true⟩, ⟨"C", "c", 1, true⟩, ⟨"D", "d", 1, true⟩],
   [⟨"P", "pr", "A", .OPEN⟩],
   [("P", "B")]⟩

/-- C5 scenario: OPEN PR P authored by A whose sole reviewer is O. -/
def dbC5 : DB :=
  ⟨[⟨1, "t", true⟩],
   [⟨"A", "a", 1, true⟩, ⟨"O", "o", 1, true⟩],
   [⟨"P", "pr", "A", .OPEN⟩],
   [("P", "O")]⟩

/-- C6 scenario (the spec's concrete scenario after B's deactivation):
team {A author, B, C} with B already inactive; OPEN PR P by A whose
remaining reviewer is C, so no eligible replacement for C exists. -/
def dbC6 : DB :=
  ⟨[⟨1, "t", true⟩],
   [⟨"A", "a", 1, true⟩, ⟨"B", "b", 1, false⟩, ⟨"C", "c", 1, true⟩],
   [⟨"P", "pr", "A", .OPEN⟩],
   [("P", "C")]⟩

/-- C7 counterexample scenario: team 1 whose single member B is already
inactive when the team is deactivated. -/
def dbC7x : DB :=
  ⟨[⟨1, "t", true⟩], [⟨"B", "b", 1, false⟩], [], []⟩

/-- C7 witness scenario for the amended claim: team 1 with two active
members A and B; A authored the OPEN PR P reviewed by B. -/
def dbC7w : DB :=
  ⟨[⟨1, "t", true⟩],
   [⟨"A", "a", 1, true⟩, ⟨"B", "b", 1, true⟩],
   [⟨"P", "pr", "A", .OPEN⟩],
   [("P", "B")]⟩

/-- C8 witness scenario: OPEN PR P by A with no reviewers yet and the
active teammate B. -/
def dbC8w : DB :=
  ⟨[⟨1, "t", true⟩],
   [⟨"A", "a", 1, true⟩, ⟨"B", "b", 1, true⟩],
   [⟨"P", "pr", "A", .OPEN⟩],
   []⟩

/-- C9 counterexample scenario: a MERGED PR P; the existing user X is
not among its reviewers. -/
def dbC9x : DB :=
  ⟨[⟨1, "t", true⟩],
   [⟨"A", "a", 1, true⟩, ⟨"X", "x", 1, true⟩],
   [⟨"P", "pr", "A", .MERGED⟩],
   []⟩

/-- C9 witness scenario for the amended claim: an OPEN PR P; the
existing user X is not among its reviewers. -/
def dbC9w : DB :=
  ⟨[⟨1, "t", true⟩],
   [⟨"A", "a", 1, true⟩, ⟨"X", "x", 1, true⟩],
   [⟨"P", "pr", "A", .OPEN⟩],
   []⟩

/-- C10 witness scenario: the active team t with one member. -/
def dbC10w : DB :=
  ⟨[⟨1, "t", true⟩], [⟨"A", "a", 1, true⟩], [], []⟩

/-! ## Helper lemmas about the repository layer -/

theorem getUserByID_mem {db : DB} {uid : String} {u : User}
    (h : getUserByID db uid = some u) : u ∈ db.users ∧ u.id = uid := by
  rw [getUserByID] at h
  split at h
  · exact absurd h (by simp)
  · next v hf =>
    split at h
    · exact absurd h (by simp)
    · simp only [Option.some.injEq] at h
      subst h
      exact ⟨List.mem_of_find?_eq_some hf, by simpa using List.find?_some hf⟩

theorem getTeamByName_mem {db : DB} {name : String} {t : Team}
    (h : getTeamByName db name = some t) : t ∈ db.teams ∧ t.teamName = name := by
  rw [getTeamByName] at h
  exact ⟨List.mem_of_find?_eq_some h, by simpa using List.find?_some h⟩

theorem getPRByID_mem {db : DB} {prId : String} {pr : PullRequest}
    (h : getPRByID db prId = some pr) : pr ∈ db.prs ∧ pr.id = prId := by
  rw [getPRByID] at h
  exact ⟨List.mem_of_find?_eq_some h, by simpa using List.find?_some h⟩

/-- A stored assignment of an existing user shows up in the
`GetReviewersForPR` join. -/
theorem mem_getReviewers_map {db : DB} {prId uid : String}
    (h1 : (prId, uid) ∈ db.assignments)
    (h2 : ∃ u ∈ db.users, u.id = uid) :
    uid ∈ (getReviewers db prId).map Reviewer.id := by
  obtain ⟨u, hu, hid⟩ := h2
  have hfind : (db.users.find? (fun v => v.id == uid)).isSome := by
    rw [List.find?_isSome]
    exact ⟨u, hu, by simp [hid]⟩
  obtain ⟨u', hu'⟩ := Option.isSome_iff_exists.mp hfind
  have hu'id : u'.id = uid := by
    have := List.find?_some hu'
    simpa using this
  rw [List.mem_map]
  refine ⟨⟨u'.id, u'.username⟩, ?_, hu'id⟩
  rw [getReviewers, List.mem_filterMap]
  refine ⟨(prId, uid), ?_, ?_⟩
  · rw [List.mem_filter]; exact ⟨h1, by simp⟩
  · rw [hu']; simp

theorem getReviewers_ne_nil {db : DB} {prId uid : String}
    (h1 : (prId, uid) ∈ db.assignments)
    (h2 : ∃ u ∈ db.users, u.id = uid) :
    getReviewers db prId ≠ [] := by
  intro hnil
  have := mem_getReviewers_map h1 h2
  rw [hnil] at this
  simp at this

/-- The deleted pair is gone after `RemoveReviewerFromPR`. -/
theorem not_mem_removeReviewer (db : DB) (prId uid : String) :
    (prId, uid) ∉ (removeReviewer db prId uid).assignments := by
  rw [removeReviewer]
  intro h
  have := List.of_mem_filter h
  simp at this

/-- Membership facts for `FindReplacementCandidates`. -/
theorem mem_findReviewCandidates {db : DB} {teamId : Int} {authorId : String}
    {excl : List String} {limit : Nat} {c : User}
    (h : c ∈ findReviewCandidates db teamId authorId excl limit) :
    c ∈ db.users ∧ c.teamId = teamId ∧ c.isActive = true ∧ c.id ≠ authorId
      ∧ excl.contains c.id = false := by
  rw [findReviewCandidates] at h
  have h1 := List.mem_of_mem_filter ((List.take_sublist _ _).mem h)
  have h2 := List.of_mem_filter ((List.take_sublist _ _).mem h)
  simp only [Bool.and_eq_true, beq_iff_eq, bne_iff_ne, ne_eq, Bool.not_eq_true'] at h2
  exact ⟨h1, h2.1.1.1, h2.1.1.2, h2.1.2, h2.2⟩

/-- `AssignReviewers` succeeds and appends exactly one row per user when
the PR exists, each user exists, no pair is already present, and the
ids are distinct. -/
theorem assignReviewers_ok (db : DB) (prId : String) (uids : List String)
    (hpr : db.prs.any (fun p => p.id == prId) = true)
    (husers : ∀ uid ∈ uids, ∃ u ∈ db.users, u.id = uid)
    (hfresh : ∀ uid ∈ uids, (prId, uid) ∉ db.assignments)
    (hnd : uids.Nodup) :
    assignReviewers db prId uids =
      .ok { db with assignments := db.assignments ++ uids.map (fun uid => (prId, uid)) } := by
  induction uids generalizing db with
  | nil => simp [assignReviewers]
  | cons uid rest ih =>
    rw [assignReviewers]
    have c1 : (db.assignments.contains (prId, uid)) = false := by
      simpa using hfresh uid (by simp)
    have c3 : db.users.any (fun u => u.id == uid) = true := by
      obtain ⟨u, hu, hid⟩ := husers uid (by simp)
      simp [List.any_eq_true]
      exact ⟨u, hu, hid⟩
    have hstep : addReviewerToPR db prId uid =
        .ok { db with assignments := db.assignments ++ [(prId, uid)] } := by
      rw [addReviewerToPR, c1, hpr, c3]
      simp
    rw [hstep]
    have hrest := ih { db with assignments := db.assignments ++ [(prId, uid)] }
      (by simpa using hpr)
      (fun v hv => husers v (by simp [hv]))
      (fun v hv => by
        have h1 := hfresh v (by simp [hv])
        have h2 : v ≠ uid := by
          intro he; subst he; exact (List.nodup_cons.mp hnd).1 hv
        simp [h1, h2])
      (List.nodup_cons.mp hnd).2
    show assignReviewers { db with assignments := db.assignments ++ [(prId, uid)] } prId rest = _
    rw [hrest]
    simp

/-- When every PR in the list still has a non-empty reviewer set *in
the committed base* (which is exactly what the pool-backed
`GetReviewers` reads), the inner cascade loop only removes rows: no
top-up runs, the count is untouched, and teams/users/prs are
preserved. -/
theorem rebalancePRs_stale (base : DB) (uid : String) (prs : List PullRequest) :
    ∀ (cur : DB) (count : Nat),
    (∀ pr ∈ prs, getReviewers base pr.id ≠ []) →
    ∃ cur', rebalancePRs base cur count uid prs = .ok (cur', count)
      ∧ cur'.teams = cur.teams ∧ cur'.users = cur.users ∧ cur'.prs = cur.prs
      ∧ ∀ a ∈ cur'.assignments, a ∈ cur.assignments := by
  induction prs with
  | nil =>
    intro cur count _
    exact ⟨cur, by simp [rebalancePRs], rfl, rfl, rfl, fun a ha => ha⟩
  | cons pr rest ih =>
    intro cur count h
    have hne := h pr (by simp)
    have hlen : ((getReviewers base pr.id).length == 0) = false := by
      simpa using hne
    have hstep : rebalancePR base cur count uid pr =
        .ok (removeReviewer cur pr.id uid, count) := by
      rw [rebalancePR, hlen]
      simp
    obtain ⟨cur', hrun, ht, hu2, hp, hsub⟩ :=
      ih (removeReviewer cur pr.id uid) count (fun q hq => h q (by simp [hq]))
    refine ⟨cur', ?_, ht, hu2, hp, fun a ha => List.mem_of_mem_filter (hsub a ha)⟩
    rw [rebalancePRs, hstep]
    show rebalancePRs base (removeReviewer cur pr.id uid) count uid rest = _
    exact hrun

/-- Whole-cascade version of `rebalancePRs_stale`: whenever every
processed user exists in the committed base and the transaction view's
assignments are a subset of the committed ones (true at the start of
every deactivation flow), the cascade never assigns a replacement and
returns count 0. -/
theorem reassignUsersGo_stale (base : DB) (uids : List String) :
    ∀ (cur : DB) (count : Nat),
    (∀ uid ∈ uids, ∃ u ∈ base.users, u.id = uid) →
    (∀ a ∈ cur.assignments, a ∈ base.assignments) →
    ∃ cur', reassignUsersGo base cur count uids = .ok (cur', count)
      ∧ cur'.teams = cur.teams ∧ cur'.users = cur.users ∧ cur'.prs = cur.prs
      ∧ ∀ a ∈ cur'.assignments, a ∈ cur.assignments := by
  induction uids with
  | nil =>
    intro cur count _ _
    exact ⟨cur, by simp [reassignUsersGo], rfl, rfl, rfl, fun a ha => ha⟩
  | cons uid rest ih =>
    intro cur count husers hsub
    have hprs : ∀ pr ∈ getOpenPRsByReviewer cur uid, getReviewers base pr.id ≠ [] := by
      intro pr hpr
      rw [getOpenPRsByReviewer, List.mem_filter] at hpr
      have hmem : (pr.id, uid) ∈ cur.assignments := by simpa using hpr.2
      exact getReviewers_ne_nil (hsub _ hmem) (husers uid (by simp))
    obtain ⟨cur1, hrun1, ht1, hu1, hp1, hsub1⟩ :=
      rebalancePRs_stale base uid _ cur count hprs
    obtain ⟨cur', hrun2, ht2, hu2, hp2, hsub2⟩ :=
      ih cur1 count (fun v hv => husers v (by simp [hv]))
        (fun a ha => hsub a (hsub1 a ha))
    refine ⟨cur', ?_, ht2.trans ht1, hu2.trans hu1, hp2.trans hp1,
      fun a ha => hsub1 a (hsub2 a ha)⟩
    rw [reassignUsersGo, hrun1]
    show reassignUsersGo base cur1 count rest = _
    exact hrun2

/-! ## Claim theorems -/

/-- **C1** (code-bug evidence).  The claim states that the cascading
rebalance removes a deactivated user from every OPEN PR they review and,
for a PR left with an empty reviewer set whose author's team is active,
assigns up to `maxReviewers` replacement candidates, returning the
number of PRs that received a new reviewer.  The code violates the
top-up part: the emptiness check at part_002 line 321 uses
`GetReviewers`, which has no transaction parameter and reads the
committed snapshot (repo.go lines 327-338, `querier(nil)`); that
snapshot still contains the just-removed, uncommitted reviewer, so the
check never fires.  Concretely: deactivating B — sole reviewer of the
OPEN PR P, in the active team 1 where the active non-author C is an
eligible candidate — leaves P with zero reviewers and a reassigned
count of 0, where the claim requires C to be assigned and the count to
be 1. -/
theorem c1_cascade_topup_never_fires :
    repoSetUserActiveStatus dbC1 "B" false = .ok (dbC1tx, ⟨"B", "b", 1, false⟩)
    ∧ reassignReviewsForUsers dbC1 dbC1tx ["B"] = .ok (dbC1after, 0)
    ∧ setUserActiveStatus dbC1 "B" false = .ok (dbC1after, ⟨"B", "b", 1, false⟩)
    ∧ getReviewers dbC1after "P" = []
    ∧ getTeamByID dbC1after 1 = some ⟨1, "t", true⟩
    ∧ findReviewCandidates dbC1after 1 "A" [] maxReviewers = [⟨"C", "c", 1, true⟩] :=
  ⟨by decide, by decide, by decide, by decide, by decide, by decide⟩

/-- **C5** (code-bug evidence).  The claim states that after the old
reviewer row is removed, the reviewer set used for the candidate
exclusion is re-read inside the same transaction, reflecting the
removal.  The read actually performed by `reassignReviewerInTx`
(part_002 line 260) is `GetReviewers`, whose interface signature has no
transaction handle and whose implementation always queries the pool
(repo.go lines 327-338): it returns the pre-transaction committed
snapshot.  Concretely: with O the sole reviewer of P, after the
in-transaction removal of O the transaction state has no reviewers, yet
the set the code reads still contains O; the old id is only filtered
out afterwards in Go code (part_002 lines 265-270). -/
theorem c5_reread_is_pretransaction_snapshot :
    getReviewers dbC5 "P" = [⟨"O", "o"⟩]
    ∧ getReviewers (removeReviewer dbC5 "P" "O") "P" = []
    ∧ reassignReviewerInTx dbC5 dbC5 ⟨"P", "pr", "A", .OPEN⟩ "O" =
        .ok (removeReviewer dbC5 "P" "O", "") :=
  ⟨by decide, by decide, by decide⟩

/-- **C6** (code-bug evidence).  The claim (and the repository's own
e2e test `TestUserDeactivationAndReassignment`, step 4) says an
explicit `ReassignReviewer` that finds no eligible candidate fails with
the distinct `NoCandidate` outcome.  The code instead returns success
with an empty replacement id: `reassignReviewerInTx` returns `"", nil`
when the candidate list is empty (part_002 lines 282-285), the removal
commits, and `ErrNoCandidate` is never constructed anywhere in the
service layer — so the handler answers 200 OK, not the NO_CANDIDATE
conflict the test asserts.  Concretely, in the spec's scenario (team
{A author, B, C}, B deactivated, P reviewed only by C), reassigning C
succeeds with the empty-string replacement. -/
theorem c6_nocandidate_not_reported :
    reassignReviewer dbC6 "P" "C" =
      .ok ({ dbC6 with assignments := [] },
           some (⟨"P", "pr", "A", .OPEN⟩, []), "")
    ∧ (getReviewers dbC6 "P").any (fun r => r.id == "C") = true
    ∧ findReviewCandidates dbC6 1 "A" ["C"] 1 = [] :=
  ⟨by decide, by decide, by decide⟩

/-- **C7 counterexample**.  The claim says the deactivated-user count
returned by `DeactivateTeamAndReassign` equals the team's member
count.  `DeactivateUsersByTeam` only updates and returns members with
`is_active = true` (`user.sql` lines 53-58), so a team whose single
member B is already inactive yields a deactivated count of 0 while its
member count is 1. -/
theorem c7_deactivated_count_counterexample :
    deactivateTeamAndReassign dbC7x "t" =
      .ok ({ dbC7x with teams := [⟨1, "t", false⟩] }, 0, 0)
    ∧ (dbC7x.users.filter (fun u => u.teamId == 1)).length = 1 :=
  ⟨by decide, by decide⟩

/-- **C9 counterexample**.  The claim quantifies over *every* PR, but
`validateReassignment` (part_002 lines 236-252) checks the merged
status before reviewer membership: on the MERGED PR P, with the
existing user X not among its reviewers, `ReassignReviewer` fails with
`PRMerged`, not `NotAssigned`. -/
theorem c9_notassigned_counterexample :
    reassignReviewer dbC9x "P" "X" = .error .PRMerged
    ∧ reassignReviewer dbC9x "P" "X" ≠ .error .NotAssigned
    ∧ (getReviewers dbC9x "P").all (fun r => r.id != "X") = true :=
  ⟨by decide, by decide, by decide⟩

/-- **C2**: `CreatePR` with a non-empty name and an existing author
(the Go code also requires a non-empty author id before the lookup)
creates the PR with status OPEN and assigns exactly
`min(N, maxReviewers)` reviewers, where `N` is the number of active
members of the author's team other than the author; the author is never
among them, and zero candidates is a success with zero reviewers.  The
id-uniqueness hypotheses mirror the primary keys of `pull_requests`,
`review_assignments` and `users`. -/
theorem c2_createPR_assigns_min (db : DB) (name authorId newPrId : String) (author : User)
    (hname : (name == "") = false)
    (hauth : (authorId == "") = false)
    (hauthor : getUserByID db authorId = some author)
    (hfreshPR : ∀ p ∈ db.prs, p.id ≠ newPrId)
    (hfreshA : ∀ a ∈ db.assignments, a.1 ≠ newPrId)
    (hnd : (db.users.map User.id).Nodup) :
    createPR db name authorId newPrId =
      .ok ({ db with
              prs := db.prs ++ [⟨newPrId, name, authorId, .OPEN⟩],
              assignments := db.assignments ++
                (findReviewCandidates db author.teamId authorId [] maxReviewers).map
                  (fun c => (newPrId, c.id)) },
           ⟨newPrId, name, authorId, .OPEN⟩,
           findReviewCandidates db author.teamId authorId [] maxReviewers)
    ∧ (findReviewCandidates db author.teamId authorId [] maxReviewers).length =
        min ((db.users.filter (fun u => u.teamId == author.teamId && u.isActive
              && u.id != authorId)).length) maxReviewers
    ∧ (∀ c ∈ findReviewCandidates db author.teamId authorId [] maxReviewers, c.id ≠ authorId) := by
  have hlen : (findReviewCandidates db author.teamId authorId [] maxReviewers).length =
      min ((db.users.filter (fun u => u.teamId == author.teamId && u.isActive
            && u.id != authorId)).length) maxReviewers := by
    rw [findReviewCandidates]
    have hfe : (db.users.filter (fun u =>
        u.teamId == author.teamId && u.isActive && u.id != authorId
          && !(([] : List String).contains u.id))) =
        db.users.filter (fun u => u.teamId == author.teamId && u.isActive && u.id != authorId) := by
      apply List.filter_congr
      intro u _
      simp
    rw [hfe, List.length_take, Nat.min_comm]
  have hexcl : ∀ c ∈ findReviewCandidates db author.teamId authorId [] maxReviewers,
      c.id ≠ authorId :=
    fun c hc => (mem_findReviewCandidates hc).2.2.2.1
  refine ⟨?_, hlen, hexcl⟩
  have hcreate : repoCreatePR db ⟨newPrId, name, authorId, .OPEN⟩ =
      .ok ({ db with prs := db.prs ++ [⟨newPrId, name, authorId, .OPEN⟩] },
           ⟨newPrId, name, authorId, .OPEN⟩) := by
    rw [repoCreatePR]
    have c1 : (db.prs.any fun p => p.id == (⟨newPrId, name, authorId, .OPEN⟩ : PullRequest).id) = false := by
      rw [List.any_eq_false]
      intro p hp
      simpa using hfreshPR p hp
    have c2 : (db.users.any fun u => u.id == (⟨newPrId, name, authorId, .OPEN⟩ : PullRequest).authorId) = true := by
      obtain ⟨hmem, hid⟩ := getUserByID_mem hauthor
      rw [List.any_eq_true]
      exact ⟨author, hmem, by simpa using hid⟩
    rw [c1, c2]
    simp
  rw [createPR, hname, hauth]
  simp only [Bool.or_self, Bool.false_eq_true, if_false]
  rw [hauthor]
  show (do
      let (cur1, createdPR) ← repoCreatePR db ⟨newPrId, name, authorId, .OPEN⟩
      let candidates := findReviewCandidates db author.teamId authorId [] maxReviewers
      let cur2 ←
        if candidates.length > 0 then
          assignReviewers cur1 createdPR.id (candidates.map User.id)
        else pure cur1
      Except.ok (cur2, createdPR, candidates) : Except Err (DB × PullRequest × List User)) = _
  rw [hcreate]
  show (do
      let cur2 ←
        if (findReviewCandidates db author.teamId authorId [] maxReviewers).length > 0 then
          assignReviewers { db with prs := db.prs ++ [⟨newPrId, name, authorId, .OPEN⟩] }
            newPrId ((findReviewCandidates db author.teamId authorId [] maxReviewers).map User.id)
        else pure { db with prs := db.prs ++ [⟨newPrId, name, authorId, .OPEN⟩] }
      Except.ok (cur2, (⟨newPrId, name, authorId, .OPEN⟩ : PullRequest),
        findReviewCandidates db author.teamId authorId [] maxReviewers)
      : Except Err (DB × PullRequest × List User)) = _
  by_cases hnil : findReviewCandidates db author.teamId authorId [] maxReviewers = []
  · rw [hnil]
    simp
  · have hpos : (findReviewCandidates db author.teamId authorId [] maxReviewers).length > 0 :=
      List.length_pos.mpr hnil
    rw [if_pos hpos]
    have hassign := assignReviewers_ok
      { db with prs := db.prs ++ [⟨newPrId, name, authorId, .OPEN⟩] } newPrId
      ((findReviewCandidates db author.teamId authorId [] maxReviewers).map User.id)
      (by
        rw [List.any_eq_true]
        exact ⟨⟨newPrId, name, authorId, .OPEN⟩, by simp, by simp⟩)
      (by
        intro uid huid
        rw [List.mem_map] at huid
        obtain ⟨c, hc, hcid⟩ := huid
        exact ⟨c, (mem_findReviewCandidates hc).1, hcid⟩)
      (by
        intro uid huid hmem
        exact hfreshA _ hmem rfl)
      (by
        have hsub : (findReviewCandidates db author.teamId authorId [] maxReviewers).Sublist db.users :=
          (List.take_sublist _ _).trans (List.filter_sublist _)
        exact List.Nodup.sublist (hsub.map User.id) hnd)
    rw [hassign, List.map_map]
    rfl

/-- **C2 witness**: in the four-member team of `dbC2w`, `CreatePR` by A
assigns exactly `min(3, 2) = 2` reviewers, none of them A. -/
theorem c2_createPR_assigns_min_witness :
    createPR dbC2w "feat" "A" "P" =
      .ok ({ dbC2w with
              prs := dbC2w.prs ++ [⟨"P", "feat", "A", .OPEN⟩],
              assignments := dbC2w.assignments ++
                (findReviewCandidates dbC2w 1 "A" [] maxReviewers).map (fun c => ("P", c.id)) },
           ⟨"P", "feat", "A", .OPEN⟩,
           findReviewCandidates dbC2w 1 "A" [] maxReviewers)
    ∧ (findReviewCandidates dbC2w 1 "A" [] maxReviewers).length =
        min ((dbC2w.users.filter (fun u => u.teamId == (1 : Int) && u.isActive
              && u.id != "A")).length) maxReviewers
    ∧ (∀ c ∈ findReviewCandidates dbC2w 1 "A" [] maxReviewers, c.id ≠ "A") :=
  c2_createPR_assigns_min dbC2w "feat" "A" "P" ⟨"A", "a", 1, true⟩
    (by decide) (by decide) (by decide) (by decide) (by decide) (by decide)

/-- **C3**: a merged PR is immutable.  With the PR row MERGED, and an
existing active user as the assignment target (the user guards precede
the status guard in `AssignReviewer`), all three mutations fail with
`PRMerged` and the committed assignment rows are untouched, the failed
transaction having been rolled back. -/
theorem c3_merged_pr_immutable (db : DB) (prId userId oldUserId : String)
    (pr : PullRequest) (user : User)
    (hpr : getPRByID db prId = some pr)
    (hmerged : pr.status = .MERGED)
    (huser : getUserByID db userId = some user)
    (hactive : user.isActive = true) :
    mergePR db prId = .error .PRMerged
    ∧ assignReviewer db prId userId = .error .PRMerged
    ∧ reassignReviewer db prId oldUserId = .error .PRMerged
    ∧ (commitOf db (mergePR db prId)).assignments = db.assignments
    ∧ (commitOf db (assignReviewer db prId userId)).assignments = db.assignments
    ∧ (commitOf db (reassignReviewer db prId oldUserId)).assignments = db.assignments := by
  have hopen : pr.IsOpen = false := by
    rw [PullRequest.IsOpen, hmerged]
    rfl
  have h1 : mergePR db prId = .error .PRMerged := by
    rw [mergePR, hpr]
    simp [hopen]
  have h2 : assignReviewer db prId userId = .error .PRMerged := by
    rw [assignReviewer, huser]
    simp [hactive, getPR, hpr, hopen]
  have h3 : reassignReviewer db prId oldUserId = .error .PRMerged := by
    rw [reassignReviewer]
    simp [getPR, hpr, validateReassignment, hopen]
  exact ⟨h1, h2, h3, by rw [h1]; rfl, by rw [h2]; rfl, by rw [h3]; rfl⟩

/-- **C3 witness**: on the MERGED PR of `dbC3w` all three mutations
report `PRMerged`. -/
theorem c3_merged_pr_immutable_witness :
    mergePR dbC3w "P" = .error .PRMerged
    ∧ assignReviewer dbC3w "P" "B" = .error .PRMerged
    ∧ reassignReviewer dbC3w "P" "B" = .error .PRMerged := by
  have h := c3_merged_pr_immutable dbC3w "P" "B" "B" ⟨"P", "pr", "A", .MERGED⟩
    ⟨"B", "b", 1, true⟩ (by decide) (by decide) (by decide) (by decide)
  exact ⟨h.1, h.2.1, h.2.2.1⟩

/-- **C4**: on an OPEN PR with `oldUserID` currently assigned (and a
resolvable author), `ReassignReviewer` commits a state in which the
(pr, oldUserID) row is gone — even when no replacement candidate was
found — and a returned non-empty replacement id is never the removed
user, who sits in the exclusion list of the candidate query. -/
theorem c4_reassign_removes_old (db : DB) (prId oldUserId : String)
    (pr : PullRequest) (author : User)
    (hpr : getPRByID db prId = some pr)
    (hopen : pr.IsOpen = true)
    (hassigned : (getReviewers db prId).any (fun r => r.id == oldUserId) = true)
    (hauthor : getUserByID db pr.authorId = some author) :
    ∃ db' opr newId,
      reassignReviewer db prId oldUserId = .ok (db', opr, newId)
      ∧ (prId, oldUserId) ∉ db'.assignments
      ∧ (newId ≠ "" → newId ≠ oldUserId) := by
  have hpid : pr.id = prId := (getPRByID_mem hpr).2
  have hget : getPR db prId = some (pr, getReviewers db prId) := by
    rw [getPR, hpr]
  have hval : validateReassignment pr (getReviewers db prId) oldUserId = none := by
    rw [validateReassignment, hopen, hassigned]
    simp
  have hunfold : reassignReviewerInTx db db pr oldUserId =
      (match findReviewCandidates db author.teamId pr.authorId
          (((getReviewers db pr.id).filter (fun r => r.id != oldUserId)).map Reviewer.id
            ++ [oldUserId]) 1 with
        | [] => Except.ok (removeReviewer db pr.id oldUserId, "")
        | c :: _ => do
            let cur2 ← assignReviewers (removeReviewer db pr.id oldUserId) pr.id [c.id]
            Except.ok (cur2, c.id)) := by
    rw [reassignReviewerInTx, hauthor]
  cases hcand : findReviewCandidates db author.teamId pr.authorId
      (((getReviewers db pr.id).filter (fun r => r.id != oldUserId)).map Reviewer.id
        ++ [oldUserId]) 1 with
  | nil =>
    have htx : reassignReviewerInTx db db pr oldUserId =
        .ok (removeReviewer db pr.id oldUserId, "") := by
      rw [hunfold, hcand]
    refine ⟨removeReviewer db pr.id oldUserId,
      getPR (removeReviewer db pr.id oldUserId) prId, "", ?_, ?_, ?_⟩
    · rw [reassignReviewer, hget]
      show (match validateReassignment pr (getReviewers db prId) oldUserId with
        | some e => Except.error e
        | none => do
            let (cur1, newReviewerID) ← reassignReviewerInTx db db pr oldUserId
            Except.ok (cur1, getPR cur1 prId, newReviewerID)) = _
      rw [hval]
      show (do
          let (cur1, newReviewerID) ← reassignReviewerInTx db db pr oldUserId
          Except.ok (cur1, getPR cur1 prId, newReviewerID) : Except Err _) = _
      rw [htx]
      rfl
    · rw [← hpid]
      exact not_mem_removeReviewer db pr.id oldUserId
    · intro h
      exact absurd rfl h
  | cons c rest =>
    have hc : c ∈ findReviewCandidates db author.teamId pr.authorId
        (((getReviewers db pr.id).filter (fun r => r.id != oldUserId)).map Reviewer.id
          ++ [oldUserId]) 1 := by
      rw [hcand]
      simp
    obtain ⟨hcusers, _, _, _, hcexcl⟩ := mem_findReviewCandidates hc
    have hcnot : c.id ∉ (((getReviewers db pr.id).filter (fun r => r.id != oldUserId)).map Reviewer.id
        ++ [oldUserId]) := by
      simpa using hcexcl
    have hcne : c.id ≠ oldUserId := by
      intro he
      exact hcnot (by rw [he]; simp)
    have hnotmem : (pr.id, c.id) ∉ db.assignments := by
      intro hmem
      have hrid : c.id ∈ (getReviewers db pr.id).map Reviewer.id :=
        mem_getReviewers_map hmem ⟨c, hcusers, rfl⟩
      apply hcnot
      rw [List.mem_append]
      left
      rw [List.mem_map] at hrid ⊢
      obtain ⟨r, hr, hrid'⟩ := hrid
      refine ⟨r, ?_, hrid'⟩
      rw [List.mem_filter]
      refine ⟨hr, ?_⟩
      rw [hrid']
      simpa using hcne
    have hadd : addReviewerToPR (removeReviewer db pr.id oldUserId) pr.id c.id =
        .ok { removeReviewer db pr.id oldUserId with assignments :=
          (removeReviewer db pr.id oldUserId).assignments ++ [(pr.id, c.id)] } := by
      rw [addReviewerToPR]
      have d1 : ((removeReviewer db pr.id oldUserId).assignments.contains (pr.id, c.id)) = false := by
        have hni : (pr.id, c.id) ∉ (removeReviewer db pr.id oldUserId).assignments := by
          intro hmem
          exact hnotmem (List.mem_of_mem_filter hmem)
        simpa using hni
      have d2 : ((removeReviewer db pr.id oldUserId).prs.any (fun p => p.id == pr.id)) = true := by
        rw [List.any_eq_true]
        exact ⟨pr, (getPRByID_mem hpr).1, by simp⟩
      have d3 : ((removeReviewer db pr.id oldUserId).users.any (fun u => u.id == c.id)) = true := by
        rw [List.any_eq_true]
        exact ⟨c, hcusers, by simp⟩
      rw [d1, d2, d3]
      simp
    have hassignOne : assignReviewers (removeReviewer db pr.id oldUserId) pr.id [c.id] =
        .ok { removeReviewer db pr.id oldUserId with assignments :=
          (removeReviewer db pr.id oldUserId).assignments ++ [(pr.id, c.id)] } := by
      rw [assignReviewers, hadd]
      show assignReviewers { removeReviewer db pr.id oldUserId with assignments :=
          (removeReviewer db pr.id oldUserId).assignments ++ [(pr.id, c.id)] } pr.id [] = _
      rw [assignReviewers]
    have htx : reassignReviewerInTx db db pr oldUserId =
        .ok ({ removeReviewer db pr.id oldUserId with assignments :=
          (removeReviewer db pr.id oldUserId).assignments ++ [(pr.id, c.id)] }, c.id) := by
      rw [hunfold, hcand]
      show (do
          let cur2 ← assignReviewers (removeReviewer db pr.id oldUserId) pr.id [c.id]
          Except.ok (cur2, c.id) : Except Err (DB × String)) = _
      rw [hassignOne]
      rfl
    refine ⟨{ removeReviewer db pr.id oldUserId with assignments :=
        (removeReviewer db pr.id oldUserId).assignments ++ [(pr.id, c.id)] },
      getPR { removeReviewer db pr.id oldUserId with assignments :=
        (removeReviewer db pr.id oldUserId).assignments ++ [(pr.id, c.id)] } prId,
      c.id, ?_, ?_, ?_⟩
    · rw [reassignReviewer, hget]
      show (match validateReassignment pr (getReviewers db prId) oldUserId with
        | some e => Except.error e
        | none => do
            let (cur1, newReviewerID) ← reassignReviewerInTx db db pr oldUserId
            Except.ok (cur1, getPR cur1 prId, newReviewerID)) = _
      rw [hval]
      show (do
          let (cur1, newReviewerID) ← reassignReviewerInTx db db pr oldUserId
          Except.ok (cur1, getPR cur1 prId, newReviewerID) : Except Err _) = _
      rw [htx]
      rfl
    · intro hmem
      rw [List.mem_append] at hmem
      rcases hmem with hmem | hmem
      · rw [← hpid] at hmem
        exact not_mem_removeReviewer db pr.id oldUserId hmem
      · rw [List.mem_singleton, Prod.mk.injEq] at hmem
        exact hcne hmem.2.symm
    · intro _
      exact hcne

/-- **C4 witness**: reassigning B on the PR of `dbC4w` removes the
(P, B) row and any replacement differs from B. -/
theorem c4_reassign_removes_old_witness :
    ∃ db' opr newId,
      reassignReviewer dbC4w "P" "B" = .ok (db', opr, newId)
      ∧ ("P", "B") ∉ db'.assignments
      ∧ (newId ≠ "" → newId ≠ "B") :=
  c4_reassign_removes_old dbC4w "P" "B" ⟨"P", "pr", "A", .OPEN⟩ ⟨"A", "a", 1, true⟩
    (by decide) (by decide) (by decide) (by decide)

/-- **C7 amended**: `DeactivateTeamAndReassign` on an existing team
marks the team and all its members inactive within one transaction and
returns the number of members that were *active at call time* (not the
full member count) as the deactivated count; the reassigned count
equals the number of distinct PRs that received at least one new
reviewer — with the stale-read cascade both are zero: the committed
assignment rows only shrink. -/
theorem c7_deactivate_team_amended (db : DB) (teamName : String) (team : Team)
    (hteam : getTeamByName db teamName = some team) :
    ∃ db',
      deactivateTeamAndReassign db teamName =
        .ok (db', (db.users.filter (fun u => u.teamId == team.id && u.isActive)).length, 0)
      ∧ (∀ t ∈ db'.teams, t.id = team.id → t.isActive = false)
      ∧ (∀ u ∈ db'.users, u.teamId = team.id → u.isActive = false)
      ∧ (∀ a ∈ db'.assignments, a ∈ db.assignments) := by
  have hcur1 : repoDeactivateTeam db db teamName =
      .ok { db with teams := db.teams.map (fun x => if x.id == team.id then { x with isActive := false } else x) } := by
    rw [repoDeactivateTeam, hteam]
  set cur1 : DB :=
    { db with teams := db.teams.map (fun x => if x.id == team.id then { x with isActive := false } else x) } with hcur1def
  set cur2 : DB := (repoDeactivateUsersByTeam cur1 team.id).1 with hcur2def
  have hcur2users : cur2.users = db.users.map (fun u =>
      if u.teamId == team.id && u.isActive then { u with isActive := false } else u) := rfl
  have hcur2teams : cur2.teams = cur1.teams := rfl
  have hcur2assign : cur2.assignments = db.assignments := rfl
  obtain ⟨cur', hrun, ht, hu, hp, hsub⟩ :=
    reassignUsersGo_stale db ((db.users.filter (fun u => u.teamId == team.id && u.isActive)).map User.id)
      cur2 0
      (by
        intro uid huid
        rw [List.mem_map] at huid
        obtain ⟨u, hu1, hu2⟩ := huid
        exact ⟨u, List.mem_of_mem_filter hu1, hu2⟩)
      (by rw [hcur2assign]; exact fun a ha => ha)
  have hrun' : reassignReviewsForUsers db cur2
      ((db.users.filter (fun u => u.teamId == team.id && u.isActive)).map User.id) =
      .ok (cur', 0) := hrun
  refine ⟨cur', ?_, ?_, ?_, ?_⟩
  · rw [deactivateTeamAndReassign, hteam, hcur1]
    show (do
        let (cur3, reassignedCount) ← reassignReviewsForUsers db cur2
          ((db.users.filter (fun u => u.teamId == team.id && u.isActive)).map User.id)
        Except.ok (cur3,
          ((db.users.filter (fun u => u.teamId == team.id && u.isActive)).map User.id).length,
          reassignedCount) : Except Err (DB × Nat × Nat)) = _
    rw [hrun']
    show Except.ok (cur',
      ((db.users.filter (fun u => u.teamId == team.id && u.isActive)).map User.id).length, 0) = _
    rw [List.length_map]
  · intro t htm hteq
    rw [ht, hcur2teams] at htm
    have hc1t : cur1.teams = db.teams.map (fun x => if x.id == team.id then { x with isActive := false } else x) := rfl
    rw [hc1t, List.mem_map] at htm
    obtain ⟨x, _, hfx⟩ := htm
    by_cases hx : (x.id == team.id) = true
    · rw [if_pos hx] at hfx
      rw [← hfx]
    · rw [if_neg hx] at hfx
      subst hfx
      exact absurd (by simp [hteq]) hx
  · intro u hum huteq
    rw [hu, hcur2users, List.mem_map] at hum
    obtain ⟨x, _, hfx⟩ := hum
    by_cases hx : (x.teamId == team.id && x.isActive) = true
    · rw [if_pos hx] at hfx
      rw [← hfx]
    · rw [if_neg hx] at hfx
      subst hfx
      simp only [Bool.and_eq_true, beq_iff_eq] at hx
      by_cases hact : x.isActive = true
      · exact absurd ⟨huteq, hact⟩ hx
      · simpa using hact
  · intro a ha
    have := hsub a ha
    rw [hcur2assign] at this
    exact this

/-- **C7 amended witness**: deactivating team t of `dbC7w` deactivates
its two active members, reports 2 deactivated and 0 reassigned, and
the assignment rows do not grow. -/
theorem c7_deactivate_team_amended_witness :
    ∃ db',
      deactivateTeamAndReassign dbC7w "t" =
        .ok (db', (dbC7w.users.filter (fun u => u.teamId == (1 : Int) && u.isActive)).length, 0)
      ∧ (∀ t ∈ db'.teams, t.id = (1 : Int) → t.isActive = false)
      ∧ (∀ u ∈ db'.users, u.teamId = (1 : Int) → u.isActive = false)
      ∧ (∀ a ∈ db'.assignments, a ∈ dbC7w.assignments) :=
  c7_deactivate_team_amended dbC7w "t" ⟨1, "t", true⟩ (by decide)

/-- **C8**: `AssignReviewer` behaves exactly per the guard chain of
part_002 lines 147-197: inactive user → `UserNotActive`; merged PR →
`PRMerged`; author self-assignment → `Validation`; already-assigned
user → idempotent success with the committed state unchanged; full
reviewer set → `Validation`; otherwise exactly one assignment row is
appended and committed. -/
theorem c8_assignReviewer_spec (db : DB) (prId userId : String)
    (pr : PullRequest) (user : User)
    (huser : getUserByID db userId = some user)
    (hpr : getPRByID db prId = some pr) :
    (user.isActive = false → assignReviewer db prId userId = .error .UserNotActive)
    ∧ (user.isActive = true → pr.IsOpen = false →
        assignReviewer db prId userId = .error .PRMerged)
    ∧ (user.isActive = true → pr.IsOpen = true → pr.authorId = userId →
        assignReviewer db prId userId = .error .Validation)
    ∧ (user.isActive = true → pr.IsOpen = true → pr.authorId ≠ userId →
        (getReviewers db prId).any (fun r => r.id == userId) = true →
        assignReviewer db prId userId = .ok (db, some (pr, getReviewers db prId)))
    ∧ (user.isActive = true → pr.IsOpen = true → pr.authorId ≠ userId →
        (getReviewers db prId).any (fun r => r.id == userId) = false →
        (getReviewers db prId).length ≥ maxReviewers →
        assignReviewer db prId userId = .error .Validation)
    ∧ (user.isActive = true → pr.IsOpen = true → pr.authorId ≠ userId →
        (getReviewers db prId).any (fun r => r.id == userId) = false →
        (getReviewers db prId).length < maxReviewers →
        assignReviewer db prId userId =
          .ok ({ db with assignments := db.assignments ++ [(prId, userId)] },
               getPR { db with assignments := db.assignments ++ [(prId, userId)] } prId)) := by
  have hpid : pr.id = prId := (getPRByID_mem hpr).2
  obtain ⟨humem, huid⟩ := getUserByID_mem huser
  refine ⟨?_, ?_, ?_, ?_, ?_, ?_⟩
  · intro hact
    rw [assignReviewer, huser]
    simp [hact]
  · intro hact hopen
    rw [assignReviewer, huser]
    simp [hact, getPR, hpr, hopen]
  · intro hact hopen hauth
    rw [assignReviewer, huser]
    simp [hact, getPR, hpr, hopen, hauth]
  · intro hact hopen hauth hany
    have hauthb : (pr.authorId == userId) = false := by simpa using hauth
    rw [assignReviewer, huser]
    simp [hact, getPR, hpr, hopen, hauthb, hany]
  · intro hact hopen hauth hany hge
    have hauthb : (pr.authorId == userId) = false := by simpa using hauth
    rw [assignReviewer, huser]
    simp [hact, getPR, hpr, hopen, hauthb, hany, hge]
  · intro hact hopen hauth hany hlt
    have hauthb : (pr.authorId == userId) = false := by simpa using hauth
    have hnge : ¬ ((getReviewers db prId).length ≥ maxReviewers) := Nat.not_le.mpr hlt
    have hassign : assignReviewers db prId [userId] =
        .ok { db with assignments := db.assignments ++ [(prId, userId)] } := by
      rw [assignReviewers]
      have d1 : (db.assignments.contains (prId, userId)) = false := by
        have hni : (prId, userId) ∉ db.assignments := by
          intro hmem
          have := mem_getReviewers_map hmem ⟨user, humem, huid⟩
          rw [List.mem_map] at this
          obtain ⟨r, hr, hrid⟩ := this
          rw [List.any_eq_false] at hany
          exact hany r hr (by simpa using hrid)
        simpa using hni
      have d2 : (db.prs.any (fun p => p.id == prId)) = true := by
        rw [List.any_eq_true]
        exact ⟨pr, (getPRByID_mem hpr).1, by simpa using hpid⟩
      have d3 : (db.users.any (fun u => u.id == userId)) = true := by
        rw [List.any_eq_true]
        exact ⟨user, humem, by simpa using huid⟩
      rw [addReviewerToPR, d1, d2, d3]
      simp
      show assignReviewers { db with assignments := db.assignments ++ [(prId, userId)] } prId [] = _
      rw [assignReviewers]
    rw [assignReviewer, huser]
    simp [hact, getPR, hpr, hopen, hauthb, hany, hnge, hassign]
    rfl

/-- **C8 witness**: assigning the active non-author B to the OPEN PR of
`dbC8w` appends exactly the (P, B) row. -/
theorem c8_assignReviewer_spec_witness :
    assignReviewer dbC8w "P" "B" =
      .ok ({ dbC8w with assignments := dbC8w.assignments ++ [("P", "B")] },
           getPR { dbC8w with assignments := dbC8w.assignments ++ [("P", "B")] } "P") :=
  (c8_assignReviewer_spec dbC8w "P" "B" ⟨"P", "pr", "A", .OPEN⟩ ⟨"B", "b", 1, true⟩
    (by decide) (by decide)).2.2.2.2.2
    (by decide) (by decide) (by decide) (by decide) (by decide)

/-- **C9 amended**: restricted to an OPEN PR, `ReassignReviewer` with a
target that is not a current reviewer fails with `NotAssigned` and
leaves the committed assignment rows unchanged. -/
theorem c9_amended_notassigned (db : DB) (prId oldUserId : String) (pr : PullRequest)
    (hpr : getPRByID db prId = some pr)
    (hopen : pr.IsOpen = true)
    (hnot : (getReviewers db prId).any (fun r => r.id == oldUserId) = false) :
    reassignReviewer db prId oldUserId = .error .NotAssigned
    ∧ (commitOf db (reassignReviewer db prId oldUserId)).assignments = db.assignments := by
  have h : reassignReviewer db prId oldUserId = .error .NotAssigned := by
    rw [reassignReviewer]
    simp [getPR, hpr, validateReassignment, hopen, hnot]
  exact ⟨h, by rw [h]; rfl⟩

/-- **C9 amended witness**: on the OPEN PR of `dbC9w`, reassigning the
unassigned user X reports `NotAssigned` and changes nothing. -/
theorem c9_amended_notassigned_witness :
    reassignReviewer dbC9w "P" "X" = .error .NotAssigned
    ∧ (commitOf dbC9w (reassignReviewer dbC9w "P" "X")).assignments = dbC9w.assignments :=
  c9_amended_notassigned dbC9w "P" "X" ⟨"P", "pr", "A", .OPEN⟩
    (by decide) (by decide) (by decide)

/-- **C10**: `AddUser` persists and returns an *active* user — whatever
the `isActive` argument says — because the storage layer's `CreateUser`
hardcodes `is_active = true` (repo.go line 133). -/
theorem c10_addUser_always_active (db : DB) (username teamName newId : String)
    (isActive : Bool) (team : Team)
    (hteam : getTeamByName db teamName = some team)
    (huname : (username == "") = false)
    (htname : (teamName == "") = false)
    (hfresh : db.users.any (fun v => v.id == newId || v.username == username) = false) :
    addUser db username teamName isActive newId =
      .ok ({ db with users := db.users ++ [⟨newId, username, team.id, true⟩] },
           ⟨newId, username, team.id, true⟩)
    ∧ (⟨newId, username, team.id, true⟩ : User).isActive = true := by
  refine ⟨?_, rfl⟩
  rw [addUser, huname, htname]
  simp only [Bool.or_self, Bool.false_eq_true, if_false]
  rw [hteam]
  have hteams : db.teams.any (fun t => t.id == team.id) = true := by
    simp [List.any_eq_true]
    exact ⟨team, (getTeamByName_mem hteam).1, rfl⟩
  simp [repoCreateUser, hfresh, hteams]
  rfl

/-- **C10 witness**: `AddUser` with `isActive = false` on `dbC10w`
still stores and returns an active user. -/
theorem c10_addUser_always_active_witness :
    addUser dbC10w "newbie" "t" false "N" =
      .ok ({ dbC10w with users := dbC10w.users ++ [⟨"N", "newbie", 1, true⟩] },
           ⟨"N", "newbie", 1, true⟩)
    ∧ (⟨"N", "newbie", 1, true⟩ : User).isActive = true :=
  c10_addUser_always_active dbC10w "newbie" "t" "N" false ⟨1, "t", true⟩
    (by decide) (by decide) (by decide) (by decide)

end PRReviewer
